import Mathlib

/-!
Verification of the notification-relay trampolines in src/pulsego.c
(card_info_cb, sink_info_cb, context_subscribe_cb) against the
natural-language specification of the Notification Relay.

Embedding. The C file contains three straight-line trampoline functions.
Each receives a callback invocation from the event source (the pulseaudio
client library) and performs exactly one call into the corresponding host
handler (go_card_info_cb, go_sink_info_cb, go_context_subscribe_cb, which
are declared extern in pulsego.h and defined on the host side, outside
src/). We give the trampolines a trace semantics: a call to an external
host handler is recorded as a HostCall value carrying exactly the
arguments of that call, and a trampoline invocation denotes the list of
host calls it performs, in order. Pointers are modelled as possibly-null
references; the const-removing cast in the C source is the explicit view
change castConst.
-/

/-- The payload of a pa_card_info snapshot. The struct itself is defined by
the external pulseaudio headers, not by this repository; the relay never
reads any of its fields, so representative identity fields suffice. -/
structure pa_card_info where
  index : Nat
  name : String
deriving DecidableEq

/-- The payload of a pa_sink_info snapshot; external struct, never
inspected by the relay. -/
structure pa_sink_info where
  index : Nat
  name : String
  mute : Bool
deriving DecidableEq

/-- An opaque event-source handle (the pa_context pointer). The relay never
dereferences it, so only its identity is modelled. -/
structure pa_context where
  addr : Nat
deriving DecidableEq

/-- An opaque void pointer: the RegistrationContext (userdata) threaded
through every notification. Only its identity matters. -/
structure VoidPtr where
  addr : Nat
deriving DecidableEq

/-- A read-only (const-qualified) possibly-null pointer, as the event
source hands snapshots to the trampolines. val = none models NULL. -/
structure ConstPtr (A : Type) where
  val : Option A
deriving DecidableEq

/-- A non-const possibly-null pointer, the shape the host handlers expect. -/
structure Ptr (A : Type) where
  val : Option A
deriving DecidableEq

/-- The cast (pa_card_info*)i in the C source: a pure type-narrowing view
change from the const-qualified source view to the host view. It cannot
change the pointer value. -/
def castConst {A : Type} (p : ConstPtr A) : Ptr A :=
  { val := p.val }

/-- One call into a host handler, recorded with exactly the argument values
of the call. -/
inductive HostCall where
  | cardInfo (i : Ptr pa_card_info) (eol : Int) (userdata : VoidPtr)
  | sinkInfo (i : Ptr pa_sink_info) (eol : Int) (userdata : VoidPtr)
  | subscriptionEvent (t : Nat) (idx : Nat) (userdata : VoidPtr)
deriving DecidableEq

/-- The RegistrationContext carried by a recorded host call. -/
def HostCall.userdataOf : HostCall → VoidPtr
  | .cardInfo _ _ u => u
  | .sinkInfo _ _ u => u
  | .subscriptionEvent _ _ u => u

/-- The host handler go_card_info_cb is external (declared in pulsego.h,
defined outside src/): in the trace semantics, calling it records one
HostCall with exactly the arguments passed. -/
def go_card_info_cb (i : Ptr pa_card_info) (eol : Int) (userdata : VoidPtr) : List HostCall :=
  [HostCall.cardInfo i eol userdata]

/-- External host handler go_sink_info_cb, as a trace emitter. -/
def go_sink_info_cb (i : Ptr pa_sink_info) (eol : Int) (userdata : VoidPtr) : List HostCall :=
  [HostCall.sinkInfo i eol userdata]

/-- External host handler go_context_subscribe_cb, as a trace emitter. -/
def go_context_subscribe_cb (t : Nat) (idx : Nat) (userdata : VoidPtr) : List HostCall :=
  [HostCall.subscriptionEvent t idx userdata]

/-- src/pulsego.c, card_info_cb: forwards the snapshot (after the
const-removing cast), the end-of-list flag and userdata to
go_card_info_cb. The pa_context argument c is received but unused. -/
def card_info_cb (c : pa_context) (i : ConstPtr pa_card_info) (eol : Int)
    (userdata : VoidPtr) : List HostCall :=
  go_card_info_cb (castConst i) eol userdata

/-- src/pulsego.c, sink_info_cb: same shape as card_info_cb, for sinks. -/
def sink_info_cb (c : pa_context) (i : ConstPtr pa_sink_info) (eol : Int)
    (userdata : VoidPtr) : List HostCall :=
  go_sink_info_cb (castConst i) eol userdata

/-- src/pulsego.c, context_subscribe_cb: forwards the event type, object
index and userdata to go_context_subscribe_cb. c is received but unused. -/
def context_subscribe_cb (c : pa_context) (t : Nat) (idx : Nat)
    (userdata : VoidPtr) : List HostCall :=
  go_context_subscribe_cb t idx userdata

/-- One invocation of a relay trampoline, with all its arguments. -/
inductive RelayCall where
  | card (c : pa_context) (i : ConstPtr pa_card_info) (eol : Int) (u : VoidPtr)
  | sink (c : pa_context) (i : ConstPtr pa_sink_info) (eol : Int) (u : VoidPtr)
  | sub (c : pa_context) (t : Nat) (idx : Nat) (u : VoidPtr)
deriving DecidableEq

/-- The RegistrationContext argument of a relay invocation. -/
def RelayCall.userdataOf : RelayCall → VoidPtr
  | .card _ _ _ u => u
  | .sink _ _ _ u => u
  | .sub _ _ _ u => u

/-- Run one relay invocation: dispatch to the trampoline from src/pulsego.c. -/
def dispatch : RelayCall → List HostCall
  | .card c i eol u => card_info_cb c i eol u
  | .sink c i eol u => sink_info_cb c i eol u
  | .sub c t idx u => context_subscribe_cb c t idx u

/-- Run a sequence of relay invocations in order; the trace of host calls
is the concatenation of the per-invocation traces. -/
def relayTrace (calls : List RelayCall) : List HostCall :=
  (calls.map dispatch).flatten

/-- The end-of-list protocol on a relay input: the snapshot pointer is null
exactly when the end-of-list flag (a C int) is nonzero. Subscription
events have no end-of-list concept. -/
def RelayCall.eolOK : RelayCall → Bool
  | .card _ i eol _ => i.val.isNone == (eol != 0)
  | .sink _ i eol _ => i.val.isNone == (eol != 0)
  | .sub _ _ _ _ => true

/-- The end-of-list protocol as observed by the host handler. -/
def HostCall.eolOK : HostCall → Bool
  | .cardInfo i eol _ => i.val.isNone == (eol != 0)
  | .sinkInfo i eol _ => i.val.isNone == (eol != 0)
  | .subscriptionEvent _ _ _ => true

/-- State-passing semantics for a host with state S: the host handler is a
state transformer keyed by the recorded call, and running a trace applies
it to each recorded call in order. The relay owns no state of its own,
so any state change of an invocation comes from this function alone. -/
def runHost {S : Type} (h : HostCall → S → S) (trace : List HostCall) (s : S) : S :=
  trace.foldl (fun st k => h k st) s

/-- What a host handler does internally on one notification: it either
completes normally or raises a failure (a panic carrying a message). -/
inductive HostOutcome where
  | ok
  | panicked (msg : String)
deriving DecidableEq

/-- What the event-source dispatch loop observes when a trampoline
invocation finishes: either control returned normally (with an optional
log entry recording a contained host failure), or a failure unwound
across the boundary into the dispatch loop. -/
inductive RelayOutcome where
  | returned (log : Option String)
  | unwound (msg : String)
deriving DecidableEq

/-- Modelled from the spec: the host handlers (go_card_info_cb,
go_sink_info_cb, go_context_subscribe_cb) are declared extern in
src/pulsego.h but defined outside src/, so how a host failure crosses the
call boundary is not visible in the source. Per the spec, the Relay
boundary must contain any such failure (log and continue, or terminate
the whole process deliberately) and must never let it unwind into the
event-source dispatch loop. We model the boundary crossing accordingly:
a normal host completion returns normally, and a host panic is contained
into a logged normal return. -/
def containAtBoundary (r : HostOutcome) : RelayOutcome :=
  match r with
  | .ok => .returned none
  | .panicked m => .returned (some m)

/-- The three host handlers as possibly-failing functions, for the
failure-containment semantics. -/
structure HostHandlers where
  card : Ptr pa_card_info → Int → VoidPtr → HostOutcome
  sink : Ptr pa_sink_info → Int → VoidPtr → HostOutcome
  sub : Nat → Nat → VoidPtr → HostOutcome

/-- Run one relay invocation against possibly-failing host handlers: the
trampoline makes its single forwarding call and the boundary contains
any host failure. -/
def dispatchRun (H : HostHandlers) : RelayCall → RelayOutcome
  | .card _ i eol u => containAtBoundary (H.card (castConst i) eol u)
  | .sink _ i eol u => containAtBoundary (H.sink (castConst i) eol u)
  | .sub _ t idx u => containAtBoundary (H.sub t idx u)

/-- C1: every invocation of card_info_cb and sink_info_cb invokes the
corresponding host handler exactly with the triple (snapshot, endOfList,
context) it received; no field value is transformed, and the only change
is the type-narrowing view change castConst on the snapshot pointer,
which preserves the pointer value. -/
theorem relay_info_exact_passthrough (c : pa_context) (i : ConstPtr pa_card_info)
    (j : ConstPtr pa_sink_info) (eol : Int) (u : VoidPtr) :
    card_info_cb c i eol u = [HostCall.cardInfo (castConst i) eol u] ∧
    sink_info_cb c j eol u = [HostCall.sinkInfo (castConst j) eol u] ∧
    (castConst i).val = i.val ∧ (castConst j).val = j.val := by
  exact ⟨rfl, rfl, rfl, rfl⟩

/-- C2: every invocation of context_subscribe_cb with event type t, object
index idx and context u invokes the host subscription handler exactly once
with exactly (t, idx, u), unmodified. -/
theorem relay_subscription_exact_passthrough (c : pa_context) (t : Nat)
    (idx : Nat) (u : VoidPtr) :
    context_subscribe_cb c t idx u = [HostCall.subscriptionEvent t idx u] := by
  rfl

/-- C3: for every relay invocation, of any of the three kinds, every host
call it performs carries exactly the RegistrationContext (userdata) value
the relay received: the relay never replaces or mutates it. -/
theorem relay_userdata_identity (k : RelayCall) :
    (dispatch k).map HostCall.userdataOf = [k.userdataOf] := by
  cases k <;> rfl

/-- C4: for every relay invocation and every behaviour of the host
handlers, including one that panics, the invocation returns control
normally to the event-source dispatch loop (with the failure at most
logged); no failure unwinds across the boundary, and the relay operation
itself cannot fail. -/
theorem relay_contains_host_failures (H : HostHandlers) (k : RelayCall) :
    ∃ log : Option String, dispatchRun H k = RelayOutcome.returned log := by
  cases k with
  | card c i eol u =>
      cases h : H.card (castConst i) eol u <;>
        simp [dispatchRun, containAtBoundary, h]
  | sink c i eol u =>
      cases h : H.sink (castConst i) eol u <;>
        simp [dispatchRun, containAtBoundary, h]
  | sub c t idx u =>
      cases h : H.sub t idx u <;>
        simp [dispatchRun, containAtBoundary, h]

/-- C5: for every sequence of relay invocations in which the event source
supplies a null snapshot exactly when the end-of-list flag is set, every
host call in the resulting trace shows a null snapshot exactly when its
end-of-list flag is set, and never otherwise. -/
theorem relay_preserves_eol_protocol (calls : List RelayCall)
    (h : calls.all RelayCall.eolOK) :
    (relayTrace calls).all HostCall.eolOK := by
  induction calls with
  | nil => rfl
  | cons k rest ih =>
      simp only [List.all_cons, Bool.and_eq_true] at h
      have hrest := ih h.2
      have hk : (dispatch k).all HostCall.eolOK := by
        have hk0 := h.1
        cases k <;>
          simp_all [dispatch, card_info_cb, sink_info_cb, context_subscribe_cb,
            go_card_info_cb, go_sink_info_cb, go_context_subscribe_cb,
            castConst, HostCall.eolOK, RelayCall.eolOK]
      simp only [relayTrace, List.map_cons, List.flatten_cons, List.all_append,
        Bool.and_eq_true]
      exact ⟨hk, hrest⟩

/-- Witness for C5 at a concrete two-call sequence: one data-carrying call
with the flag clear, then the terminal null call with the flag set. -/
theorem relay_preserves_eol_protocol_witness :
    (relayTrace [RelayCall.card ⟨7⟩ ⟨some ⟨0, "card0"⟩⟩ 0 ⟨1⟩,
      RelayCall.card ⟨7⟩ ⟨none⟩ 1 ⟨1⟩]).all HostCall.eolOK :=
  relay_preserves_eol_protocol
    [RelayCall.card ⟨7⟩ ⟨some ⟨0, "card0"⟩⟩ 0 ⟨1⟩,
      RelayCall.card ⟨7⟩ ⟨none⟩ 1 ⟨1⟩] (by decide)

/-- C6: the sequence relayDeviceInfo(src, snap1, false, ctx) followed by
relayDeviceInfo(src, null, true, ctx) invokes the host device-info
handler exactly twice, first with (snap1, false, ctx), then with
(null, true, ctx), in that order: one host call per relay call, none
reordered, batched or dropped. -/
theorem relay_two_call_scenario (src : pa_context) (snap1 : pa_card_info)
    (ctx : VoidPtr) :
    relayTrace [RelayCall.card src ⟨some snap1⟩ 0 ctx,
      RelayCall.card src ⟨none⟩ 1 ctx] =
    [HostCall.cardInfo ⟨some snap1⟩ 0 ctx, HostCall.cardInfo ⟨none⟩ 1 ctx] := by
  rfl

/-- C7 counterexample: on the malformed input of a null snapshot with the
end-of-list flag false (0), card_info_cb does not handle the notification
defensively by ignoring or logging it: it forwards it to the host handler
unchanged, so the claim that the relay ignores or logs malformed inputs
rather than forwarding them is false. -/
theorem relay_forwards_malformed_input :
    card_info_cb ⟨0⟩ ⟨none⟩ 0 ⟨0⟩ = [HostCall.cardInfo ⟨none⟩ 0 ⟨0⟩] ∧
    card_info_cb ⟨0⟩ ⟨none⟩ 0 ⟨0⟩ ≠ [] := by
  exact ⟨rfl, by decide⟩

/-- C7 amended: on a malformed input that violates the end-of-list
protocol (null snapshot with the flag false), and on any event type
however out of range, the relay performs no validation and does not
crash: it returns normally after forwarding the notification, unchanged,
to the host handler in exactly one call. -/
theorem relay_no_validation (c : pa_context) (i : ConstPtr pa_card_info)
    (eol : Int) (u : VoidPtr) (t : Nat) (idx : Nat)
    (_h : i.val = none ∧ eol = 0) :
    card_info_cb c i eol u = [HostCall.cardInfo (castConst i) eol u] ∧
    (card_info_cb c i eol u).length = 1 ∧
    context_subscribe_cb c t idx u = [HostCall.subscriptionEvent t idx u] := by
  exact ⟨rfl, rfl, rfl⟩

/-- Witness for the amended C7 at a concrete malformed input. -/
theorem relay_no_validation_witness :
    card_info_cb ⟨2⟩ ⟨none⟩ 0 ⟨5⟩ = [HostCall.cardInfo ⟨none⟩ 0 ⟨5⟩] ∧
    (card_info_cb ⟨2⟩ ⟨none⟩ 0 ⟨5⟩).length = 1 ∧
    context_subscribe_cb ⟨2⟩ 999999 3 ⟨5⟩ =
      [HostCall.subscriptionEvent 999999 3 ⟨5⟩] :=
  relay_no_validation ⟨2⟩ ⟨none⟩ 0 ⟨5⟩ 999999 3 (by decide)

/-- C8: two invocations of the same relay operation that differ only in
the pa_context handle produce identical host calls: the output of each of
the three trampolines does not depend on the handle, which is never
passed to the host. -/
theorem relay_ignores_context_handle (c1 c2 : pa_context)
    (i : ConstPtr pa_card_info) (j : ConstPtr pa_sink_info) (eol : Int)
    (t : Nat) (idx : Nat) (u : VoidPtr) :
    card_info_cb c1 i eol u = card_info_cb c2 i eol u ∧
    sink_info_cb c1 j eol u = sink_info_cb c2 j eol u ∧
    context_subscribe_cb c1 t idx u = context_subscribe_cb c2 t idx u := by
  exact ⟨rfl, rfl, rfl⟩

/-- C9: each relay invocation is stateless and side-effect-free apart from
its single forwarding call: for any host state type and host handler, the
state after the invocation is exactly the state produced by one
application of the host handler to the recorded call, so nothing beyond
what the host handler itself changes is modified. -/
theorem relay_frame_only_host_call {S : Type} (h : HostCall → S → S) (s : S)
    (c : pa_context) (i : ConstPtr pa_card_info) (j : ConstPtr pa_sink_info)
    (eol : Int) (t : Nat) (idx : Nat) (u : VoidPtr) :
    runHost h (card_info_cb c i eol u) s = h (HostCall.cardInfo (castConst i) eol u) s ∧
    runHost h (sink_info_cb c j eol u) s = h (HostCall.sinkInfo (castConst j) eol u) s ∧
    runHost h (context_subscribe_cb c t idx u) s = h (HostCall.subscriptionEvent t idx u) s := by
  exact ⟨rfl, rfl, rfl⟩

/-- C10: every relay invocation, of any of the three kinds, performs
exactly one call to its host handler; the trampolines are straight-line
total functions, so every invocation terminates whenever the host handler
does. -/
theorem relay_exactly_one_host_call (k : RelayCall) :
    (dispatch k).length = 1 := by
  cases k <;> rfl
